import Mathlib

/-!
Shallow embedding of `src/app.py` (MaxlDruck 3D-print cost calculator).

Numeric model: Python floats are embedded as exact rationals (ℚ); `round(x, 2)`
becomes `round2` below. Database tables (SQLite via SQLAlchemy) are embedded as
Lean lists of row structures; the SQLite rowid primary key is a `Nat` assigned
as max-of-existing-ids plus one. Fallible operations return `Except`.
-/

namespace PrintCalc

/-- Embedding of Python `round(x, 2)` on the exact-rational abstraction of
float arithmetic: round to two decimal places (tie-breaking details of binary
floats are abstracted; no claim below depends on tie behaviour). -/
def round2 (q : ℚ) : ℚ := (round (q * 100) : ℤ) / 100

/-! ## Global Stammdaten (shared catalog), `app.py` lines 28-38 and 251-256 -/

/-- Row of the `materials` table: `id` (primary key), `name` (UNIQUE),
`price_per_kg`. -/
structure Material where
  id : Nat
  name : String
  price_per_kg : ℚ
deriving DecidableEq, Repr

/-- Row of the `printers` table: `id` (primary key), `name` (UNIQUE),
`cost_per_hour`. -/
structure Printer where
  id : Nat
  name : String
  cost_per_hour : ℚ
deriving DecidableEq, Repr

/-- The shared `global.db` holding the two catalog tables. -/
structure GlobalDb where
  materials : List Material
  printers : List Printer
deriving DecidableEq, Repr

/-- SQLite rowid allocation: one more than the largest existing id. -/
def freshId (ids : List Nat) : Nat := ids.foldl max 0 + 1

/-- Embedding of the `Mat speichern` handler (line 253):
`global_db.merge(Material(name=m_n, price_per_kg=m_p)); global_db.commit()`.
SQLAlchemy `merge` reconciles by PRIMARY KEY; the given instance has `id=None`,
so `merge` always stages an INSERT of a new row. The `UNIQUE` constraint on
`materials.name` then makes `commit` raise `IntegrityError` when the name is
already present; otherwise a new row with a fresh id is inserted. -/
def saveMaterial (db : GlobalDb) (m_n : String) (m_p : ℚ) : Except String GlobalDb :=
  if db.materials.any (fun m => m.name == m_n) then
    .error "IntegrityError: UNIQUE constraint failed: materials.name"
  else
    .ok { db with materials :=
            db.materials ++ [⟨freshId (db.materials.map Material.id), m_n, m_p⟩] }

/-- Embedding of the `Drucker speichern` handler (line 256), analogous to
`saveMaterial`. -/
def savePrinter (db : GlobalDb) (pr_n : String) (pr_p : ℚ) : Except String GlobalDb :=
  if db.printers.any (fun p => p.name == pr_n) then
    .error "IntegrityError: UNIQUE constraint failed: printers.name"
  else
    .ok { db with printers :=
            db.printers ++ [⟨freshId (db.printers.map Printer.id), pr_n, pr_p⟩] }

/-- Embedding of `global_db.query(Material).filter(Material.name == n).first()`
(lines 167 and 362). -/
def lookupMaterial (db : GlobalDb) (n : String) : Option Material :=
  db.materials.find? (fun m => m.name == n)

/-! ## Draft line items (session state dictionaries), `app.py` lines 299-322 -/

/-- A draft line-item dictionary as built in `tab_calc`:
keys `Typ`, `Name`, `Gewicht (g)`, `Kosten`, `Details`. -/
structure DraftItem where
  typ : String
  name : String
  gewicht : ℚ
  kosten : ℚ
  details : String
deriving DecidableEq, Repr

/-- Printed-part item creation (lines 309-310): given the selected material
price `P` €/kg, printer rate `R` €/h, weight `W` g and time `T` h,
`cost = (P/1000 * W) + (R * T)` and the stored item carries `round(cost, 2)`;
`Details` records the selected material name. -/
def mkDruckItem (i_name sel_m : String) (P R W T : ℚ) : DraftItem :=
  { typ := "Druck", name := i_name, gewicht := W
    kosten := round2 (P / 1000 * W + R * T), details := sel_m }

/-- Accessory item creation (line 319): unit price `i_pr`, quantity `i_q`;
cost is `round(i_pr * i_q, 2)`, weight 0, `Details` is `"{i_q} Stk"`. -/
def mkZubehoerItem (i_name : String) (i_pr : ℚ) (i_q : Nat) : DraftItem :=
  { typ := "Zubehör", name := i_name, gewicht := 0
    kosten := round2 (i_pr * (i_q : ℚ)), details := toString i_q ++ " Stk" }

/-- The append-or-replace step of the add-item handlers (lines 311-312 and
320-321): with `edit_idx = some j` the item replaces slot `j`, otherwise it is
appended; afterwards `edit_idx` is cleared. -/
def putItem (items : List DraftItem) (edit_idx : Option Nat) (item : DraftItem) :
    List DraftItem × Option Nat :=
  match edit_idx with
  | some j => (items.set j item, none)
  | none => (items ++ [item], none)

/-- Embedding of the draft delete button body (line 339):
`st.session_state.current_items.pop(idx)`. CPython `list.pop(i)` with an
out-of-range index raises `IndexError` and leaves the list unchanged; in range
it removes exactly the element at `i`. -/
def removeDraftItem (items : List DraftItem) (idx : Nat) : Except String (List DraftItem) :=
  if idx < items.length then .ok (items.eraseIdx idx)
  else .error "IndexError: pop index out of range"

/-- Draft subtotal shown in the summary panel (line 355):
`sum(i.get("Kosten", 0.0) for i in current_items)`. -/
def draftSubtotal (items : List DraftItem) : ℚ :=
  items.foldl (fun s i => s + i.kosten) 0

/-! ## Persisted projects and the summary totals, `app.py` lines 41-62,
115-177 and 370-388 -/

/-- Row of the per-user `items` table. -/
structure ProjectItem where
  id : Nat
  project_id : Nat
  item_type : String
  name : String
  weight : ℚ
  cost : ℚ
  details : String
deriving DecidableEq, Repr

/-- A persisted project as the ORM presents it: the `projects` row together
with its `items` relationship. -/
structure Project where
  id : Nat
  name : String
  customer_name : Option String
  work_hours : ℚ
  work_rate : ℚ
  failed_filament_g : ℚ
  failed_material : Option String
  items : List ProjectItem
deriving DecidableEq, Repr

/-- The PDF grand total (lines 141-148): `total_sum = 0`, then
`total_sum += item.cost` for each item of the project. The optional work and
failed-filament lines (149-173) are emitted after this loop and never touch
`total_sum`. -/
def pdfTotalSum (p : Project) : ℚ :=
  p.items.foldl (fun s i => s + i.cost) 0

/-- The archive expander header total (line 373):
`sum(i.cost for i in proj.items)`. -/
def archiveTotal (p : Project) : ℚ :=
  p.items.foldl (fun s i => s + i.cost) 0

/-- The optional work-cost display line (lines 153-158): shown only when both
`work_hours` and `work_rate` are truthy (nonzero); value `wh * wr`; never added
to `total_sum`. -/
def workCostLine (p : Project) : Option ℚ :=
  if p.work_hours ≠ 0 ∧ p.work_rate ≠ 0 then some (p.work_hours * p.work_rate) else none

/-- The optional failed-filament display line of the PDF (lines 162-173):
rendered only when `failed_filament_g` is truthy (nonzero), `failed_material`
is truthy (set and non-empty), the material is found in the catalog at render
time, and its `price_per_kg` is truthy; the value is
`(mat.price_per_kg / 1000.0) * ff_g` (not rounded). In every other case the
line is omitted (`none`) without any failure, and it is never added to
`total_sum`. -/
def fehldruckLine (db : GlobalDb) (ff_g : ℚ) (ff_mat : Option String) : Option ℚ :=
  if ff_g = 0 then none
  else
    match ff_mat with
    | none => none
    | some m =>
      if m = "" then none
      else
        match lookupMaterial db m with
        | none => none
        | some mat =>
          if mat.price_per_kg = 0 then none
          else some (mat.price_per_kg / 1000 * ff_g)

/-! ## Auth store, `app.py` lines 21-25, 75-79, 232-243 and 396-406 -/

/-- Row of the central `users` table: `id`, `name` (UNIQUE), `password_hash`. -/
structure User where
  id : Nat
  name : String
  password_hash : String
deriving DecidableEq, Repr

/-- The central `auth.db`. -/
structure AuthDb where
  users : List User
deriving DecidableEq, Repr

/-- Embedding of the registration handlers (lines 232-243 and 396-406),
parameterised by the salted hash `hash_pw` (the code delegates to
`passlib.hash.pbkdf2_sha256.hash`, a library call outside this repository).
Guarded by `if u and pw:` (empty username or password: the click does
nothing); an existing name yields the warning `Benutzer existiert bereits.`
and no change; otherwise a new row storing `hash_pw(pw)` is inserted.
The result is the updated store and the warning message, when one is shown. -/
def registerUser (hash_pw : String → String) (db : AuthDb) (u pw : String) :
    AuthDb × Option String :=
  if u ≠ "" ∧ pw ≠ "" then
    if db.users.any (fun r => r.name == u) then
      (db, some "Benutzer existiert bereits.")
    else
      ({ users := db.users ++ [⟨freshId (db.users.map User.id), u, hash_pw pw⟩] }, none)
  else (db, none)

/-! ## Per-user ledger provisioning, `app.py` lines 81-112 and 412-420 -/

/-- Embedding of the sanitisation in `get_user_engine` (line 83):
`''.join(c for c in username if c.isalnum() or c in ('_', '-')).lower()`.
(`isalnum`/`lower` agree with the Lean character functions on ASCII, which
covers the concrete usernames used below.) -/
def safe_name (username : String) : String :=
  String.mk ((username.data.filter (fun c => c.isAlphanum || c == '_' || c == '-')).map Char.toLower)

/-- The per-user database file path (line 84): `user_dbs/user_{safe_name}.db`. -/
def user_db_path (username : String) : String :=
  "user_dbs/user_" ++ safe_name username ++ ".db"

/-- Embedding of the account delete handler (lines 412-420): the auth row is
deleted and the file at that user's ledger path is removed from the
filesystem (modelled as the list of existing paths). -/
def deleteUserAccount (db : AuthDb) (fs : List String) (u : User) :
    AuthDb × List String :=
  ({ users := db.users.filter (fun r => r.id != u.id) },
   fs.filter (fun p => p != user_db_path u.name))

/-! ## Schema migration `ensure_user_db`, `app.py` lines 87-112 -/

/-- The column list of the `projects` table as created by
`ProjectBase.metadata.create_all` from the current model (lines 41-51). -/
def fullProjectCols : List String :=
  ["id", "name", "customer_name", "work_hours", "work_rate",
   "failed_filament_g", "failed_material", "created_at"]

/-- The columns checked and added (in this order) by the `ALTER TABLE` block of
`ensure_user_db` (lines 98-107). -/
def migrationCols : List String :=
  ["customer_name", "work_hours", "work_rate", "failed_filament_g", "failed_material"]

/-- One guarded `ALTER TABLE projects ADD COLUMN c ...` step: a no-op when the
column already exists, otherwise the column is appended. -/
def addMissing (cols : List String) (c : String) : List String :=
  if c ∈ cols then cols else cols ++ [c]

/-- Embedding of `ensure_user_db` on the schema state of the `projects` table
(`[]` means the table does not exist yet): `create_all` creates the full table
when absent; then, when `PRAGMA table_info` returns rows, each of the five
migration columns is added if missing. The function is total: no execution
path faults (the code swallows exceptions from the migration block). -/
def ensure_user_db (cols : List String) : List String :=
  let cols0 := if cols = [] then fullProjectCols else cols
  if cols0 = [] then cols0 else migrationCols.foldl addMissing cols0

/-- An SQLite value stored in a `projects` row field. -/
inductive SqlValue where
  | null
  | real (q : ℚ)
  | text (s : String)
  | int (n : Int)
deriving DecidableEq, Repr

/-- The value a pre-existing row shows in a column added by the migration:
the three `REAL` columns are added with `DEFAULT 0.0` (lines 101, 103, 105),
the two `TEXT` columns without a default, hence `NULL` (lines 99, 107). -/
def migrationDefault (c : String) : SqlValue :=
  if c = "work_hours" ∨ c = "work_rate" ∨ c = "failed_filament_g" then .real 0
  else .null

/-- Reading field `c` of a row persisted under the old column list `oldCols`
after the migration: columns the row already had keep their stored value;
columns added by the migration read their default. -/
def readMigratedField (oldCols : List String) (row : String → SqlValue) (c : String) :
    SqlValue :=
  if c ∈ oldCols then row c else migrationDefault c

/-! ## Relational per-user ledger and the final-save handler,
`app.py` lines 341-352 and 372-388 -/

/-- Row of the per-user `projects` table (without the `items` relationship). -/
structure ProjectRow where
  id : Nat
  name : String
  customer_name : Option String
  work_hours : ℚ
  work_rate : ℚ
  failed_filament_g : ℚ
  failed_material : Option String
deriving DecidableEq, Repr

/-- A per-user ledger database: the two tables plus the next free rowids. -/
structure UserDb where
  projects : List ProjectRow
  items : List ProjectItem
  next_project_id : Nat
  next_item_id : Nat
deriving DecidableEq, Repr

/-- Deleting a project (via `user_db.delete`): the `cascade="all, delete-orphan"`
relationship (line 51) also deletes every item row of that project. -/
def deleteProject (db : UserDb) (pid : Nat) : UserDb :=
  { db with
    projects := db.projects.filter (fun q => q.id != pid),
    items := db.items.filter (fun it => it.project_id != pid) }

/-- The item rows inserted for a saved draft (line 350), with sequential fresh
ids starting at `start` and the given owning project id. -/
def mkItemRows (start pid : Nat) : List DraftItem → List ProjectItem
  | [] => []
  | i :: rest =>
    ⟨start, pid, i.typ, i.name, i.gewicht, i.kosten, i.details⟩ :: mkItemRows (start + 1) pid rest

/-- The draft session state relevant to the final-save handler. -/
structure SessionState where
  current_items : List DraftItem
  p_name : String
  customer_name : String
  work_hours : ℚ
  work_rate : ℚ
  failed_filament_g : ℚ
  failed_material : String
  editing_project_id : Option Nat
deriving DecidableEq, Repr

/-- Embedding of the `PROJEKT FINAL SPEICHERN` handler (lines 341-352):
when `editing_project_id` is truthy (`if st.session_state.editing_project_id:`
— Python truthiness, so `some 0` behaves like no edit; SQLite ids start at 1)
and that project still exists, it is deleted first (items cascade); then a
brand-new project row is inserted with a fresh id, its items built from the
draft (`failed_material or None` maps the empty string to `NULL`); finally the
draft list, project name and `editing_project_id` are reset. -/
def saveProjectFinal (st : SessionState) (db : UserDb) : UserDb × SessionState :=
  let db1 :=
    match st.editing_project_id with
    | some x =>
      if x ≠ 0 ∧ db.projects.any (fun q => q.id == x) then deleteProject db x else db
    | none => db
  let pid := db.next_project_id
  let newRow : ProjectRow :=
    { id := pid, name := st.p_name, customer_name := some st.customer_name,
      work_hours := st.work_hours, work_rate := st.work_rate,
      failed_filament_g := st.failed_filament_g,
      failed_material := if st.failed_material = "" then none else some st.failed_material }
  let newItems := mkItemRows db.next_item_id pid st.current_items
  ({ projects := db1.projects ++ [newRow],
     items := db1.items ++ newItems,
     next_project_id := pid + 1,
     next_item_id := db.next_item_id + st.current_items.length },
   { st with current_items := [], p_name := "", editing_project_id := none })

/-- The observable payload of a persisted item row (everything the code reads
back when loading or rendering a project: lines 144-148 and 384). -/
def ProjectItem.payload (it : ProjectItem) : String × String × ℚ × ℚ × String :=
  (it.item_type, it.name, it.weight, it.cost, it.details)

/-- The corresponding payload of a draft item dictionary. -/
def DraftItem.payload (i : DraftItem) : String × String × ℚ × ℚ × String :=
  (i.typ, i.name, i.gewicht, i.kosten, i.details)

/-! ## Helper lemmas -/

theorem foldl_add_eq_sum {α : Type} (f : α → ℚ) :
    ∀ (l : List α) (s : ℚ), l.foldl (fun a i => a + f i) s = s + (l.map f).sum
  | [], s => by simp
  | i :: l, s => by
    rw [List.foldl_cons, foldl_add_eq_sum f l (s + f i), List.map_cons, List.sum_cons]
    ring

theorem mkItemRows_project_id (pid : Nat) :
    ∀ (l : List DraftItem) (s : Nat) (it : ProjectItem),
      it ∈ mkItemRows s pid l → it.project_id = pid
  | [], _, _, h => by simp [mkItemRows] at h
  | i :: l, s, it, h => by
    simp only [mkItemRows, List.mem_cons] at h
    cases h with
    | inl h => subst h; rfl
    | inr h => exact mkItemRows_project_id pid l (s + 1) it h

theorem mkItemRows_map_payload (pid : Nat) :
    ∀ (l : List DraftItem) (s : Nat),
      (mkItemRows s pid l).map ProjectItem.payload = l.map DraftItem.payload
  | [], _ => rfl
  | i :: l, s => by
    simp only [mkItemRows, List.map_cons, mkItemRows_map_payload pid l (s + 1)]
    rfl

/-! ## Claims -/

/-- Claim C1: a printed-part line item created from material price `P` €/kg,
printer rate `R` €/h, weight `W` g and print time `T` h stores cost
`round(P/1000*W + R*T, 2)`, with the rounding applied exactly once at
creation; the add handler appends exactly this item to the draft. -/
theorem druckteil_cost_formula (i_name sel_m : String) (P R W T : ℚ)
    (items : List DraftItem) :
    (mkDruckItem i_name sel_m P R W T).kosten = round2 (P / 1000 * W + R * T)
    ∧ putItem items none (mkDruckItem i_name sel_m P R W T)
        = (items ++ [mkDruckItem i_name sel_m P R W T], none) :=
  ⟨rfl, rfl⟩

/-- Claim C6: an accessory line item created with unit price `U` and quantity
`Q ≥ 1` stores cost `round(U*Q, 2)` and records the quantity in its details. -/
theorem zubehoer_cost_formula (i_name : String) (U : ℚ) (Q : Nat) (hQ : 1 ≤ Q) :
    (mkZubehoerItem i_name U Q).kosten = round2 (U * (Q : ℚ))
    ∧ (mkZubehoerItem i_name U Q).details = toString Q ++ " Stk" :=
  ⟨rfl, rfl⟩

/-- Witness for claim C6 at `U = 3.5`, `Q = 4`. -/
theorem zubehoer_cost_formula_witness :
    (1 ≤ 4)
    ∧ (mkZubehoerItem "Schrauben" (7/2) 4).kosten = round2 (7/2 * (4 : ℚ))
    ∧ (mkZubehoerItem "Schrauben" (7/2) 4).details = toString 4 ++ " Stk" :=
  ⟨by decide, zubehoer_cost_formula "Schrauben" (7/2) 4 (by decide)⟩

/-- Claim C2: the total shown on every summary surface — the PDF grand total,
the archive expander header and the draft subtotal — is exactly the sum of the
item costs; changing `work_hours`, `work_rate`, `failed_filament_g`,
`failed_material` (or the customer name) of a project never changes it. -/
theorem project_total_is_item_sum (p : Project) (wh wr ffg : ℚ)
    (cn ffm : Option String) (ditems : List DraftItem) :
    pdfTotalSum { p with customer_name := cn, work_hours := wh, work_rate := wr,
                         failed_filament_g := ffg, failed_material := ffm }
        = (p.items.map ProjectItem.cost).sum
    ∧ archiveTotal { p with customer_name := cn, work_hours := wh, work_rate := wr,
                            failed_filament_g := ffg, failed_material := ffm }
        = (p.items.map ProjectItem.cost).sum
    ∧ draftSubtotal ditems = (ditems.map DraftItem.kosten).sum := by
  refine ⟨?_, ?_, ?_⟩ <;>
    simp [pdfTotalSum, archiveTotal, draftSubtotal, foldl_add_eq_sum]

/-- Claim C9: removing a draft item at an out-of-range index fails with the
`IndexError` condition and leaves the draft unchanged (the operation returns no
new list); at an in-range index it removes exactly that element, preserving the
order of the rest. -/
theorem remove_draft_item_spec (items : List DraftItem) (idx : Nat) :
    (items.length ≤ idx →
       removeDraftItem items idx = .error "IndexError: pop index out of range")
    ∧ (idx < items.length →
       removeDraftItem items idx = .ok (items.take idx ++ items.drop (idx + 1))) := by
  constructor
  · intro h
    simp [removeDraftItem, Nat.not_lt.mpr h]
  · intro h
    simp [removeDraftItem, h, List.eraseIdx_eq_take_drop_succ]

/-- Witness for claim C9 on a concrete one-element draft: index 3 is rejected,
index 0 removes the element. -/
theorem remove_draft_item_spec_witness :
    removeDraftItem [⟨"Druck", "a", 1, 2, "PLA"⟩] 3
      = .error "IndexError: pop index out of range"
    ∧ removeDraftItem [⟨"Druck", "a", 1, 2, "PLA"⟩] 0 = .ok [] :=
  ⟨(remove_draft_item_spec [⟨"Druck", "a", 1, 2, "PLA"⟩] 3).1 (by decide),
   (remove_draft_item_spec [⟨"Druck", "a", 1, 2, "PLA"⟩] 0).2 (by decide)⟩

/-- Claim C3, counterexample: with material `PLA` (25 €/kg) already in the
catalog, saving `PLA` again at 30 €/kg does not overwrite the entry — the
`merge` stages an INSERT (the transient instance has no primary key) and the
commit fails on the UNIQUE name constraint. -/
theorem stammdaten_upsert_counterexample :
    saveMaterial ⟨[⟨1, "PLA", 25⟩], []⟩ "PLA" 30
      = .error "IntegrityError: UNIQUE constraint failed: materials.name" :=
  rfl

/-- Claim C3 as amended: saving a material (or printer) under a fresh name
inserts exactly one new catalog entry (negative prices accepted, no
validation); saving under a name that already exists fails with a UNIQUE
constraint `IntegrityError` instead of overwriting the entry. -/
theorem stammdaten_save_spec (db : GlobalDb) (n : String) (p : ℚ) :
    ((∀ m ∈ db.materials, m.name ≠ n) →
       saveMaterial db n p
         = .ok { db with materials :=
                   db.materials ++ [⟨freshId (db.materials.map Material.id), n, p⟩] })
    ∧ ((∃ m ∈ db.materials, m.name = n) →
       saveMaterial db n p
         = .error "IntegrityError: UNIQUE constraint failed: materials.name")
    ∧ ((∀ q ∈ db.printers, q.name ≠ n) →
       savePrinter db n p
         = .ok { db with printers :=
                   db.printers ++ [⟨freshId (db.printers.map Printer.id), n, p⟩] })
    ∧ ((∃ q ∈ db.printers, q.name = n) →
       savePrinter db n p
         = .error "IntegrityError: UNIQUE constraint failed: printers.name") := by
  refine ⟨?_, ?_, ?_, ?_⟩
  · intro h
    have : db.materials.any (fun m => m.name == n) = false := by
      simp only [List.any_eq_false, beq_iff_eq]
      exact h
    simp [saveMaterial, this]
  · rintro ⟨m, hm, hname⟩
    have : db.materials.any (fun m => m.name == n) = true :=
      List.any_eq_true.mpr ⟨m, hm, by simp [hname]⟩
    simp [saveMaterial, this]
  · intro h
    have : db.printers.any (fun q => q.name == n) = false := by
      simp only [List.any_eq_false, beq_iff_eq]
      exact h
    simp [savePrinter, this]
  · rintro ⟨q, hq, hname⟩
    have : db.printers.any (fun q => q.name == n) = true :=
      List.any_eq_true.mpr ⟨q, hq, by simp [hname]⟩
    simp [savePrinter, this]

/-- Witness for the amended claim C3: in a catalog holding only `PLA`, saving
the fresh name `PETG` at price −5 inserts exactly one entry (negative price
accepted), and saving the existing name `PLA` fails with the UNIQUE error. -/
theorem stammdaten_save_spec_witness :
    saveMaterial ⟨[⟨1, "PLA", 25⟩], []⟩ "PETG" (-5)
      = .ok { materials := [⟨1, "PLA", 25⟩]
                ++ [⟨freshId ([⟨1, "PLA", 25⟩].map Material.id), "PETG", -5⟩],
              printers := [] }
    ∧ saveMaterial ⟨[⟨1, "PLA", 25⟩], []⟩ "PLA" 30
      = .error "IntegrityError: UNIQUE constraint failed: materials.name" :=
  ⟨(stammdaten_save_spec ⟨[⟨1, "PLA", 25⟩], []⟩ "PETG" (-5)).1 (by decide),
   (stammdaten_save_spec ⟨[⟨1, "PLA", 25⟩], []⟩ "PLA" 30).2.1 ⟨⟨1, "PLA", 25⟩, by decide, rfl⟩⟩

/-- Claim C5: registering an already-taken username yields the duplicate-name
warning and leaves the whole account store — in particular the existing
account's stored verifier — unchanged; registering a fresh username appends
one account storing the salted verifier `hash_pw(pw)`, and as long as the hash
differs from the plaintext, the plaintext is never what is stored. -/
theorem register_user_spec (hash_pw : String → String) (db : AuthDb) (u pw : String)
    (hu : u ≠ "") (hpw : pw ≠ "") :
    ((∃ r ∈ db.users, r.name = u) →
       registerUser hash_pw db u pw = (db, some "Benutzer existiert bereits."))
    ∧ ((∀ r ∈ db.users, r.name ≠ u) →
       registerUser hash_pw db u pw
         = ({ users := db.users ++ [⟨freshId (db.users.map User.id), u, hash_pw pw⟩] }, none)
       ∧ (hash_pw pw ≠ pw →
            ∀ r ∈ (registerUser hash_pw db u pw).1.users, r.name = u →
              r.password_hash ≠ pw)) := by
  constructor
  · rintro ⟨r, hr, hname⟩
    have : db.users.any (fun s => s.name == u) = true :=
      List.any_eq_true.mpr ⟨r, hr, by simp [hname]⟩
    simp [registerUser, hu, hpw, this]
  · intro h
    have hany : db.users.any (fun s => s.name == u) = false := by
      simp only [List.any_eq_false, beq_iff_eq]
      exact h
    have heq : registerUser hash_pw db u pw
        = ({ users := db.users ++ [⟨freshId (db.users.map User.id), u, hash_pw pw⟩] }, none) := by
      simp [registerUser, hu, hpw, hany]
    refine ⟨heq, fun hsalt r hr hname => ?_⟩
    rw [heq] at hr
    rcases List.mem_append.mp hr with hold | hnew
    · exact absurd hname (h r hold)
    · rcases List.mem_singleton.mp hnew with rfl
      exact hsalt

/-- Witness for claim C5: with `max` registered, re-registering `max` warns and
changes nothing; registering `anna` stores the hashed password, not `geheim`. -/
theorem register_user_spec_witness :
    (registerUser (fun s => String.append "hashed:" s) ⟨[⟨1, "max", "hashed:pw1"⟩]⟩ "max" "pw2"
       = (⟨[⟨1, "max", "hashed:pw1"⟩]⟩, some "Benutzer existiert bereits."))
    ∧ (registerUser (fun s => String.append "hashed:" s) ⟨[⟨1, "max", "hashed:pw1"⟩]⟩ "anna" "geheim"
         = (⟨[⟨1, "max", "hashed:pw1"⟩, ⟨2, "anna", "hashed:geheim"⟩]⟩, none)
       ∧ (String.append "hashed:" "geheim" ≠ "geheim" →
            ∀ r ∈ (registerUser (fun s => String.append "hashed:" s)
                     ⟨[⟨1, "max", "hashed:pw1"⟩]⟩ "anna" "geheim").1.users,
              r.name = "anna" → r.password_hash ≠ "geheim")) :=
  ⟨(register_user_spec (fun s => String.append "hashed:" s) ⟨[⟨1, "max", "hashed:pw1"⟩]⟩
      "max" "pw2" (by decide) (by decide)).1 ⟨⟨1, "max", "hashed:pw1"⟩, by decide, rfl⟩,
   (register_user_spec (fun s => String.append "hashed:" s) ⟨[⟨1, "max", "hashed:pw1"⟩]⟩
      "anna" "geheim" (by decide) (by decide)).2 (by decide)⟩

/-- Claim C7: the failed-filament line is priced at render time as
`price_per_kg / 1000 * failed_filament_g` from the catalog's current entry for
the stored material name; when the material is no longer in the catalog, or
the grams or the material name are unset, the line is omitted (`none`) without
any failure; and the PDF grand total never includes this cost — it is always
just the sum of the item costs whatever the failed-filament fields hold. -/
theorem fehldruck_render_spec (db : GlobalDb) (ff_g : ℚ) (m : String) (mat : Material)
    (hg : ff_g ≠ 0) (hm : m ≠ "") :
    (lookupMaterial db m = none → fehldruckLine db ff_g (some m) = none)
    ∧ (lookupMaterial db m = some mat → mat.price_per_kg ≠ 0 →
        fehldruckLine db ff_g (some m) = some (mat.price_per_kg / 1000 * ff_g))
    ∧ (∀ (gdb : GlobalDb) (fm : Option String), fehldruckLine gdb 0 fm = none)
    ∧ (∀ (gdb : GlobalDb) (g : ℚ), fehldruckLine gdb g none = none)
    ∧ (∀ p : Project, pdfTotalSum p = (p.items.map ProjectItem.cost).sum) := by
  refine ⟨?_, ?_, ?_, ?_, ?_⟩
  · intro hnone
    simp [fehldruckLine, hg, hm, hnone]
  · intro hsome hp
    simp [fehldruckLine, hg, hm, hsome, hp]
  · intro gdb fm
    simp [fehldruckLine]
  · intro gdb g
    simp [fehldruckLine]
  · intro p
    simp [pdfTotalSum, foldl_add_eq_sum]

/-- Witness for claim C7: catalog holding `PLA` at 25 €/kg, 50 g of failed
`PLA` prices the line at `25/1000 * 50`; an unknown material name omits it. -/
theorem fehldruck_render_spec_witness :
    ((50 : ℚ) ≠ 0) ∧ ("PLA" : String) ≠ ""
    ∧ (lookupMaterial ⟨[⟨1, "PLA", 25⟩], []⟩ "PLA" = some ⟨1, "PLA", 25⟩ →
        (25 : ℚ) ≠ 0 →
        fehldruckLine ⟨[⟨1, "PLA", 25⟩], []⟩ 50 (some "PLA")
          = some ((25 : ℚ) / 1000 * 50))
    ∧ (lookupMaterial ⟨[⟨1, "PLA", 25⟩], []⟩ "ABS" = none →
        fehldruckLine ⟨[⟨1, "PLA", 25⟩], []⟩ 50 (some "ABS") = none) :=
  ⟨by norm_num, by decide,
   fun hs hp => (fehldruck_render_spec ⟨[⟨1, "PLA", 25⟩], []⟩ 50 "PLA" ⟨1, "PLA", 25⟩
     (by norm_num) (by decide)).2.1 hs hp,
   fun hn => (fehldruck_render_spec ⟨[⟨1, "PLA", 25⟩], []⟩ 50 "ABS" ⟨1, "PLA", 25⟩
     (by norm_num) (by decide)).1 hn⟩

/-- Claim C10: the username-to-ledger-key transform is not injective — the
distinct registrable usernames `Alice` and `alice` share one ledger path (and
stripped punctuation collides too), and deleting the account `alice` removes
the file that is also `Alice`'s ledger. -/
theorem ledger_key_not_injective :
    ("Alice" : String) ≠ "alice"
    ∧ safe_name "Alice" = safe_name "alice"
    ∧ user_db_path "Alice" = user_db_path "alice"
    ∧ safe_name "bob!" = safe_name "bob"
    ∧ (registerUser (fun s => String.append "hashed:" s)
         ⟨[⟨1, "Alice", "hashed:pw1"⟩]⟩ "alice" "pw2").2 = none
    ∧ ((registerUser (fun s => String.append "hashed:" s)
         ⟨[⟨1, "Alice", "hashed:pw1"⟩]⟩ "alice" "pw2").1.users.map User.name)
        = ["Alice", "alice"]
    ∧ (deleteUserAccount ⟨[⟨1, "Alice", "hashed:pw1"⟩, ⟨2, "alice", "hashed:pw2"⟩]⟩
         [user_db_path "Alice"] ⟨2, "alice", "hashed:pw2"⟩).2 = []
    ∧ (deleteUserAccount ⟨[⟨1, "Alice", "hashed:pw1"⟩, ⟨2, "alice", "hashed:pw2"⟩]⟩
         [user_db_path "alice"] ⟨1, "Alice", "hashed:pw1"⟩).2 = [] := by
  refine ⟨by decide, by decide, by decide, by decide, by decide, by decide, by decide,
    by decide⟩

/-! ## Helper lemmas for the schema migration -/

theorem addMissing_mem (cols : List String) (c d : String) :
    d ∈ addMissing cols c ↔ d ∈ cols ∨ d = c := by
  unfold addMissing
  split
  · rename_i h
    exact ⟨Or.inl, fun hd => hd.elim id (fun e => e ▸ h)⟩
  · simp

theorem mem_foldl_addMissing (ms : List String) :
    ∀ (cols : List String) (d : String),
      d ∈ ms.foldl addMissing cols ↔ d ∈ cols ∨ d ∈ ms := by
  induction ms with
  | nil => simp
  | cons m ms ih =>
    intro cols d
    rw [List.foldl_cons, ih, addMissing_mem, List.mem_cons]
    tauto

theorem foldl_addMissing_of_mem (ms : List String) :
    ∀ (cols : List String), (∀ m ∈ ms, m ∈ cols) → ms.foldl addMissing cols = cols := by
  induction ms with
  | nil => intro cols _; rfl
  | cons m ms ih =>
    intro cols h
    rw [List.foldl_cons, addMissing, if_pos (h m (List.mem_cons_self m ms))]
    exact ih cols (fun x hx => h x (List.mem_cons_of_mem m hx))

theorem foldl_addMissing_eq (ms : List String) (hms : ms.Nodup) :
    ∀ (cols : List String),
      ms.foldl addMissing cols = cols ++ ms.filter (fun m => decide (m ∉ cols)) := by
  induction ms with
  | nil => intro cols; simp
  | cons m ms ih =>
    intro cols
    have hm : m ∉ ms := (List.nodup_cons.mp hms).1
    have ihs := ih (List.nodup_cons.mp hms).2
    rw [List.foldl_cons]
    by_cases hmem : m ∈ cols
    · rw [addMissing, if_pos hmem, ihs, List.filter_cons]
      simp [hmem]
    · rw [addMissing, if_neg hmem, ihs, List.filter_cons]
      have hfeq : ms.filter (fun x => decide (x ∉ cols ++ [m]))
          = ms.filter (fun x => decide (x ∉ cols)) := by
        apply List.filter_congr
        intro x hx
        have hxm : x ≠ m := fun e => hm (e ▸ hx)
        simp [List.mem_append, hxm]
      rw [hfeq]
      simp [hmem]

theorem ensure_user_db_of_ne (cols : List String) (h : cols ≠ []) :
    ensure_user_db cols = migrationCols.foldl addMissing cols := by
  simp only [ensure_user_db]
  rw [if_neg h, if_neg h]

theorem nodup_foldl_addMissing (ms : List String) (hms : ms.Nodup)
    (cols : List String) (hcols : cols.Nodup) :
    (ms.foldl addMissing cols).Nodup := by
  rw [foldl_addMissing_eq ms hms cols]
  refine List.Nodup.append hcols (hms.filter _) ?_
  intro a ha hafil
  have := List.of_mem_filter hafil
  simp only [decide_eq_true_eq] at this
  exact this ha

/-- Claim C8: running `ensure_user_db` on a projects table from an older
schema (any column list missing some of the five later columns) never faults:
the upgrade appends exactly the missing migration columns after the existing
ones, running it a second time changes nothing, every migration column is
present afterwards, and a pre-existing row reads the zero/`NULL` default in
each column it did not have (`0.0` for the three `REAL` columns, `NULL` for
the two `TEXT` columns). -/
theorem ensure_user_db_spec (cols : List String) (hne : cols ≠ []) :
    ensure_user_db cols = cols ++ migrationCols.filter (fun c => decide (c ∉ cols))
    ∧ ensure_user_db (ensure_user_db cols) = ensure_user_db cols
    ∧ (cols.Nodup → (ensure_user_db cols).Nodup)
    ∧ (∀ c ∈ migrationCols, c ∈ ensure_user_db cols)
    ∧ (∀ (row : String → SqlValue) (c : String), c ∉ cols →
        readMigratedField cols row c = migrationDefault c)
    ∧ migrationDefault "work_hours" = .real 0
    ∧ migrationDefault "work_rate" = .real 0
    ∧ migrationDefault "failed_filament_g" = .real 0
    ∧ migrationDefault "customer_name" = .null
    ∧ migrationDefault "failed_material" = .null := by
  have hnodup : migrationCols.Nodup := by decide
  have hunfold : ensure_user_db cols = migrationCols.foldl addMissing cols :=
    ensure_user_db_of_ne cols hne
  have hmain : ensure_user_db cols
      = cols ++ migrationCols.filter (fun c => decide (c ∉ cols)) := by
    rw [hunfold, foldl_addMissing_eq migrationCols hnodup cols]
  have hmem : ∀ c ∈ migrationCols, c ∈ ensure_user_db cols := by
    intro c hc
    rw [hunfold, mem_foldl_addMissing]
    exact Or.inr hc
  have hres_ne : ensure_user_db cols ≠ [] := by
    rw [hmain]
    intro h
    exact hne (List.append_eq_nil.mp h).1
  refine ⟨hmain, ?_, ?_, hmem, ?_, rfl, rfl, rfl, rfl, rfl⟩
  · rw [ensure_user_db_of_ne (ensure_user_db cols) hres_ne]
    exact foldl_addMissing_of_mem migrationCols (ensure_user_db cols) hmem
  · intro hcols
    rw [hunfold]
    exact nodup_foldl_addMissing migrationCols hnodup cols hcols
  · intro row c hc
    simp [readMigratedField, hc]

/-- Witness for claim C8 on the oldest schema `[id, name, created_at]`: all
five columns are appended, the second run is the identity, and a pre-existing
row reads `0.0` or `NULL` in the added columns. -/
theorem ensure_user_db_spec_witness :
    (["id", "name", "created_at"] : List String) ≠ []
    ∧ ensure_user_db ["id", "name", "created_at"]
        = ["id", "name", "created_at"]
          ++ migrationCols.filter (fun c => decide (c ∉ ["id", "name", "created_at"]))
    ∧ ensure_user_db (ensure_user_db ["id", "name", "created_at"])
        = ensure_user_db ["id", "name", "created_at"]
    ∧ (∀ c ∈ migrationCols, c ∈ ensure_user_db ["id", "name", "created_at"])
    ∧ (∀ (row : String → SqlValue) (c : String), c ∉ (["id", "name", "created_at"] : List String) →
        readMigratedField ["id", "name", "created_at"] row c = migrationDefault c) :=
  ⟨by decide,
   (ensure_user_db_spec ["id", "name", "created_at"] (by decide)).1,
   (ensure_user_db_spec ["id", "name", "created_at"] (by decide)).2.1,
   (ensure_user_db_spec ["id", "name", "created_at"] (by decide)).2.2.2.1,
   (ensure_user_db_spec ["id", "name", "created_at"] (by decide)).2.2.2.2.1⟩

/-! ## Helper lemmas for the final-save handler -/

theorem saveProjectFinal_edit_eq (st : SessionState) (db : UserDb) (x : Nat)
    (hedit : st.editing_project_id = some x) (hx0 : x ≠ 0)
    (hany : db.projects.any (fun q => q.id == x) = true) :
    saveProjectFinal st db =
      ({ projects := db.projects.filter (fun q => q.id != x)
            ++ [{ id := db.next_project_id, name := st.p_name,
                  customer_name := some st.customer_name,
                  work_hours := st.work_hours, work_rate := st.work_rate,
                  failed_filament_g := st.failed_filament_g,
                  failed_material := if st.failed_material = "" then none
                                     else some st.failed_material }],
         items := db.items.filter (fun it => it.project_id != x)
            ++ mkItemRows db.next_item_id db.next_project_id st.current_items,
         next_project_id := db.next_project_id + 1,
         next_item_id := db.next_item_id + st.current_items.length },
       { st with current_items := [], p_name := "", editing_project_id := none }) := by
  simp only [saveProjectFinal, hedit, deleteProject]
  rw [if_pos ⟨hx0, hany⟩]

/-- Claim C4: saving while `editing_project_id = x` is a replace, not an
update — afterwards no project row carries identity `x`, no item row belongs
to `x` (the cascade removed them), the new identity is fresh (never a project
id that existed before the save), exactly one project row carries the new
identity and the draft's name, its item rows are exactly the draft items in
order, and the draft resets with `editing_project_id` cleared. The
well-formedness hypotheses state that SQLite rowids are below the next free
rowid and nonzero. -/
theorem save_final_replaces (st : SessionState) (db : UserDb) (x : Nat)
    (hedit : st.editing_project_id = some x) (hx0 : x ≠ 0)
    (hx : ∃ q ∈ db.projects, q.id = x)
    (hwfp : ∀ q ∈ db.projects, q.id < db.next_project_id)
    (hwfi : ∀ it ∈ db.items, it.project_id < db.next_project_id) :
    (∀ q ∈ (saveProjectFinal st db).1.projects, q.id ≠ x)
    ∧ (∀ it ∈ (saveProjectFinal st db).1.items, it.project_id ≠ x)
    ∧ db.next_project_id ∉ db.projects.map ProjectRow.id
    ∧ ((saveProjectFinal st db).1.projects.filter
          (fun q => q.id == db.next_project_id)).map ProjectRow.name = [st.p_name]
    ∧ ((saveProjectFinal st db).1.items.filter
          (fun it => it.project_id == db.next_project_id)).map ProjectItem.payload
        = st.current_items.map DraftItem.payload
    ∧ (saveProjectFinal st db).2.current_items = []
    ∧ (saveProjectFinal st db).2.p_name = ""
    ∧ (saveProjectFinal st db).2.editing_project_id = none := by
  obtain ⟨q0, hq0, hq0id⟩ := hx
  have hxlt : x < db.next_project_id := hq0id ▸ hwfp q0 hq0
  have hany : db.projects.any (fun q => q.id == x) = true :=
    List.any_eq_true.mpr ⟨q0, hq0, by simp [hq0id]⟩
  rw [saveProjectFinal_edit_eq st db x hedit hx0 hany]
  refine ⟨?_, ?_, ?_, ?_, ?_, rfl, rfl, rfl⟩
  · intro q hq
    rcases List.mem_append.mp hq with hold | hnew
    · have := List.of_mem_filter hold
      simpa using this
    · rcases List.mem_singleton.mp hnew with rfl
      show db.next_project_id ≠ x
      omega
  · intro it hit
    rcases List.mem_append.mp hit with hold | hnew
    · have := List.of_mem_filter hold
      simpa using this
    · rw [mkItemRows_project_id db.next_project_id st.current_items db.next_item_id it hnew]
      omega
  · intro hmem
    rcases List.mem_map.mp hmem with ⟨q, hq, hid⟩
    exact absurd (hid ▸ hwfp q hq) (lt_irrefl _)
  · rw [List.filter_append]
    have h1 : (db.projects.filter (fun q => q.id != x)).filter
        (fun q => q.id == db.next_project_id) = [] := by
      rw [List.filter_eq_nil_iff]
      intro q hq
      have hlt := hwfp q (List.mem_of_mem_filter hq)
      simp only [beq_iff_eq]
      omega
    rw [h1, List.nil_append]
    simp
  · rw [List.filter_append]
    have h1 : (db.items.filter (fun it => it.project_id != x)).filter
        (fun it => it.project_id == db.next_project_id) = [] := by
      rw [List.filter_eq_nil_iff]
      intro it hit
      have hlt := hwfi it (List.mem_of_mem_filter hit)
      simp only [beq_iff_eq]
      omega
    have h2 : (mkItemRows db.next_item_id db.next_project_id st.current_items).filter
        (fun it => it.project_id == db.next_project_id)
        = mkItemRows db.next_item_id db.next_project_id st.current_items := by
      rw [List.filter_eq_self]
      intro it hit
      simp [mkItemRows_project_id db.next_project_id st.current_items db.next_item_id it hit]
    rw [h1, h2, List.nil_append, mkItemRows_map_payload]

/-- A concrete one-item draft loaded for editing project 1. -/
def exampleDraft : SessionState :=
  { current_items := [⟨"Druck", "Teil", 10, 5/2, "PLA"⟩], p_name := "Projekt2",
    customer_name := "Kunde", work_hours := 0, work_rate := 0,
    failed_filament_g := 0, failed_material := "", editing_project_id := some 1 }

/-- A concrete ledger holding project 1 with one item. -/
def exampleLedger : UserDb :=
  { projects := [⟨1, "Projekt1", none, 0, 0, 0, none⟩],
    items := [⟨1, 1, "Druck", "alt", 2, 3, "PLA"⟩],
    next_project_id := 2, next_item_id := 2 }

/-- Witness for claim C4: saving `exampleDraft` over `exampleLedger` replaces
project 1 with a fresh project 2 carrying the draft items, and resets the
draft. -/
theorem save_final_replaces_witness :
    (∀ q ∈ (saveProjectFinal exampleDraft exampleLedger).1.projects, q.id ≠ 1)
    ∧ (∀ it ∈ (saveProjectFinal exampleDraft exampleLedger).1.items, it.project_id ≠ 1)
    ∧ exampleLedger.next_project_id ∉ exampleLedger.projects.map ProjectRow.id
    ∧ ((saveProjectFinal exampleDraft exampleLedger).1.projects.filter
          (fun q => q.id == exampleLedger.next_project_id)).map ProjectRow.name
        = [exampleDraft.p_name]
    ∧ ((saveProjectFinal exampleDraft exampleLedger).1.items.filter
          (fun it => it.project_id == exampleLedger.next_project_id)).map ProjectItem.payload
        = exampleDraft.current_items.map DraftItem.payload
    ∧ (saveProjectFinal exampleDraft exampleLedger).2.current_items = []
    ∧ (saveProjectFinal exampleDraft exampleLedger).2.p_name = ""
    ∧ (saveProjectFinal exampleDraft exampleLedger).2.editing_project_id = none :=
  save_final_replaces exampleDraft exampleLedger 1 rfl (by decide)
    ⟨⟨1, "Projekt1", none, 0, 0, 0, none⟩, by simp [exampleLedger], rfl⟩
    (by intro q hq; simp [exampleLedger] at hq; simp [hq, exampleLedger])
    (by intro it hit; simp [exampleLedger] at hit; simp [hit, exampleLedger])

end PrintCalc
